import Mathlib

/-!
Verification of the xlam-server backend adaptation layer.

This file shallowly embeds the pure computational core of `src/engine.py`
and `src/formatting.py`: Python values are modelled by the `Json` type
(numbers keep their JSON literal text, since no claim inspects numeric
magnitude), Python dicts by association lists, and the HTTP adapters by
pure payload-building functions; the outbound call itself is represented
as data (`AdapterCall`) so that dispatch can be reasoned about without IO.
-/

/-- A Python/JSON value as handled by the server: the result of `json.loads`
and the payloads handed to `json.dumps`.  A number is kept as its literal
text (`5` ↦ `num "5"`); `none`/`None` is `null`. -/
inductive Json where
  | null : Json
  | bool (b : Bool) : Json
  | num (lit : String) : Json
  | str (s : String) : Json
  | arr (elems : List Json) : Json
  | obj (members : List (String × Json)) : Json

mutual

/-- Structural equality test on values (Python `==` on parsed JSON). -/
def Json.beq : Json → Json → Bool
  | Json.null, Json.null => true
  | Json.bool a, Json.bool b => a == b
  | Json.num a, Json.num b => a == b
  | Json.str a, Json.str b => a == b
  | Json.arr a, Json.arr b => Json.beqList a b
  | Json.obj a, Json.obj b => Json.beqMembers a b
  | _, _ => false

/-- Elementwise equality of value lists. -/
def Json.beqList : List Json → List Json → Bool
  | [], [] => true
  | a :: as, b :: bs => Json.beq a b && Json.beqList as bs
  | _, _ => false

/-- Elementwise equality of member lists. -/
def Json.beqMembers : List (String × Json) → List (String × Json) → Bool
  | [], [] => true
  | (k1, v1) :: as, (k2, v2) :: bs =>
    k1 == k2 && Json.beq v1 v2 && Json.beqMembers as bs
  | _, _ => false

end

instance : BEq Json := ⟨Json.beq⟩

/-- A Python dict with string keys, as used for configs and responses. -/
abbrev PyDict := List (String × Json)

/-- `d[k]` as an option: first binding of `k` in the dict. -/
def dictLookup (d : PyDict) (k : String) : Option Json :=
  (d.find? (fun p => p.1 == k)).map (fun p => p.2)

/-- Python `d.get(k, v)`. -/
def dictGetD (d : PyDict) (k : String) (v : Json) : Json :=
  (dictLookup d k).getD v

/-- Python `k in d`. -/
def dictHasKey (d : PyDict) (k : String) : Bool :=
  (dictLookup d k).isSome

/-- Whether the mantissa part of a JSON numeric literal is zero
(`0`, `-0.00`, `0e5`, ... are zero; `NaN`/`Infinity` are not). -/
def numLitIsZero (lit : String) : Bool :=
  (lit.toList.takeWhile (fun c => c ≠ 'e' ∧ c ≠ 'E')).all
    (fun c => c = '0' ∨ c = '-' ∨ c = '+' ∨ c = '.')

/-- Python truthiness of a value (`bool(x)`): empty containers, empty
strings, zero numbers, `None` and `False` are falsy. -/
def jsonTruthy : Json → Bool
  | Json.null => false
  | Json.bool b => b
  | Json.num lit => !numLitIsZero lit
  | Json.str s => !(s == "")
  | Json.arr l => !l.isEmpty
  | Json.obj l => !l.isEmpty

/-- Python truthiness of an optional value (`None` is falsy). -/
def optTruthy : Option Json → Bool
  | none => false
  | some j => jsonTruthy j

/-- An extracted function call (`None` ↦ `null`) as stored in the
synthesized message. -/
def optToJson : Option Json → Json
  | none => Json.null
  | some j => j

/-! ### The regex search of `extract_function_call`

`re.search(r'\{[^}]*"name"[^}]*\}', text)` matches, at the leftmost
possible `{`, the span up to the first following `}`, provided the
characters strictly between contain the six-character substring `"name"`
(neither `[^}]*` can cross a `}`, so the closing brace matched is always
the first one after the opening brace). -/

/-- Split a character list at its first `'}'`: returns the part strictly
before it and the part strictly after it. -/
def splitAtRBrace : List Char → Option (List Char × List Char)
  | [] => none
  | c :: rest =>
    if c = '}' then some ([], rest)
    else
      match splitAtRBrace rest with
      | some (inner, after) => some (c :: inner, after)
      | none => none

/-- The literal `"name"` (with its quotes) required inside the braces. -/
def nameKeyPat : List Char := ['"', 'n', 'a', 'm', 'e', '"']

/-- Whether `pat` occurs as a contiguous substring of the list. -/
def containsSub (pat : List Char) : List Char → Bool
  | [] => pat.isEmpty
  | c :: rest => pat.isPrefixOf (c :: rest) || containsSub pat rest

/-- `re.search` for the pattern: first position whose `{` is followed by a
`}` with the quoted key `name` in between; returns the matched substring. -/
def searchFCall : List Char → Option (List Char)
  | [] => none
  | c :: rest =>
    if c = '{' then
      match splitAtRBrace rest with
      | some (inner, _) =>
        if containsSub nameKeyPat inner then some ('{' :: (inner ++ ['}']))
        else searchFCall rest
      | none => searchFCall rest
    else searchFCall rest

/-! ### `json.loads`

A recursive-descent parser for the grammar accepted by Python's strict
`json.loads` (standard JSON plus the `NaN` / `Infinity` / `-Infinity`
constants), fuelled to make termination structural.  A lone escaped
surrogate — which Python would keep in the decoded string — is mapped to
the default character, since a Lean `Char` cannot hold it; no claim
exercises that corner. -/

/-- JSON whitespace (the characters `json.loads` skips between tokens). -/
def isWs (c : Char) : Bool :=
  c = ' ' || c = '\t' || c = '\n' || c = '\r'

/-- Drop leading JSON whitespace. -/
def skipWs (cs : List Char) : List Char := cs.dropWhile isWs

/-- Value of one hexadecimal digit. -/
def hexVal (c : Char) : Option Nat :=
  if '0' ≤ c ∧ c ≤ '9' then some (c.toNat - 48)
  else if 'a' ≤ c ∧ c ≤ 'f' then some (c.toNat - 87)
  else if 'A' ≤ c ∧ c ≤ 'F' then some (c.toNat - 55)
  else none

/-- Value of a four-digit hexadecimal escape. -/
def hex4 (a b c d : Char) : Option Nat := do
  let x ← hexVal a
  let y ← hexVal b
  let z ← hexVal c
  let w ← hexVal d
  some (((x * 16 + y) * 16 + z) * 16 + w)

/-- Fuelled decoder for the body of a JSON string literal (the cursor is
just past the opening quote): returns the decoded characters and the
characters after the closing quote.  Strict mode: unescaped control
characters and unknown escapes are errors; surrogate pairs in `\uXXXX`
escapes are combined.  Every step consumes at least one character, so
fuel `length + 1` is always enough. -/
def strCharsF : Nat → List Char → Option (List Char × List Char)
  | 0, _ => none
  | _ + 1, [] => none
  | _ + 1, '"' :: rest => some ([], rest)
  | fuel + 1, '\\' :: rest =>
    match rest with
    | 'u' :: h1 :: h2 :: h3 :: h4 :: r =>
      match hex4 h1 h2 h3 h4 with
      | none => none
      | some n =>
        match r with
        | '\\' :: 'u' :: k1 :: k2 :: k3 :: k4 :: r2 =>
          match hex4 k1 k2 k3 k4 with
          | some n2 =>
            if 0xD800 ≤ n ∧ n < 0xDC00 ∧ 0xDC00 ≤ n2 ∧ n2 < 0xE000 then
              (strCharsF fuel r2).map (fun p =>
                (Char.ofNat (0x10000 + (n - 0xD800) * 0x400 + (n2 - 0xDC00)) :: p.1, p.2))
            else
              (strCharsF fuel r).map (fun p => (Char.ofNat n :: p.1, p.2))
          | none => (strCharsF fuel r).map (fun p => (Char.ofNat n :: p.1, p.2))
        | _ => (strCharsF fuel r).map (fun p => (Char.ofNat n :: p.1, p.2))
    | '"' :: r => (strCharsF fuel r).map (fun p => ('"' :: p.1, p.2))
    | '\\' :: r => (strCharsF fuel r).map (fun p => ('\\' :: p.1, p.2))
    | '/' :: r => (strCharsF fuel r).map (fun p => ('/' :: p.1, p.2))
    | 'b' :: r => (strCharsF fuel r).map (fun p => (Char.ofNat 8 :: p.1, p.2))
    | 'f' :: r => (strCharsF fuel r).map (fun p => (Char.ofNat 12 :: p.1, p.2))
    | 'n' :: r => (strCharsF fuel r).map (fun p => ('\n' :: p.1, p.2))
    | 'r' :: r => (strCharsF fuel r).map (fun p => ('\r' :: p.1, p.2))
    | 't' :: r => (strCharsF fuel r).map (fun p => ('\t' :: p.1, p.2))
    | _ => none
  | fuel + 1, c :: rest =>
    if c.toNat < 32 then none
    else (strCharsF fuel rest).map (fun p => (c :: p.1, p.2))

/-- Decode a JSON string-literal body (see `strCharsF`). -/
def strChars (cs : List Char) : Option (List Char × List Char) :=
  strCharsF (cs.length + 1) cs

/-- Longest digit run at the front. -/
def digitSpan (cs : List Char) : List Char × List Char :=
  cs.span (fun c => c.isDigit)

/-- Integer part of a JSON number: `0` or a nonzero digit followed by any
digits (a leading `0` is never followed by further digits). -/
def parseIntPart : List Char → Option (List Char × List Char)
  | [] => none
  | c :: rest =>
    if c = '0' then some (['0'], rest)
    else if c.isDigit then
      match digitSpan rest with
      | (ds, r) => some (c :: ds, r)
    else none

/-- Optional fraction part `.digits` (left in place when no digit follows
the dot, as in the scanner's regex). -/
def parseFrac (cs : List Char) : List Char × List Char :=
  match cs with
  | '.' :: rest =>
    match digitSpan rest with
    | ([], _) => ([], cs)
    | (ds, r) => ('.' :: ds, r)
  | _ => ([], cs)

/-- Optional exponent part `[eE][+-]?digits` (left in place when no digit
follows). -/
def parseExp (cs : List Char) : List Char × List Char :=
  match cs with
  | c :: s :: rest =>
    if c = 'e' ∨ c = 'E' then
      if s = '+' ∨ s = '-' then
        match digitSpan rest with
        | ([], _) => ([], cs)
        | (ds, r) => (c :: s :: ds, r)
      else
        match digitSpan (s :: rest) with
        | ([], _) => ([], cs)
        | (ds, r) => (c :: ds, r)
    else ([], cs)
  | _ => ([], cs)

/-- Scan a JSON number literal (`-?(0|[1-9]\d*)(\.\d+)?([eE][+-]?\d+)?`),
returning its text and the rest of the input. -/
def parseNumber (cs : List Char) : Option (String × List Char) :=
  match cs with
  | '-' :: cs1 =>
    match parseIntPart cs1 with
    | none => none
    | some (ip, cs2) =>
      match parseFrac cs2 with
      | (fp, cs3) =>
        match parseExp cs3 with
        | (ep, cs4) => some (String.mk ('-' :: (ip ++ fp ++ ep)), cs4)
  | _ =>
    match parseIntPart cs with
    | none => none
    | some (ip, cs2) =>
      match parseFrac cs2 with
      | (fp, cs3) =>
        match parseExp cs3 with
        | (ep, cs4) => some (String.mk (ip ++ fp ++ ep), cs4)

mutual

/-- Parse one JSON value after skipping leading whitespace. -/
def parseValue : Nat → List Char → Option (Json × List Char)
  | 0, _ => none
  | fuel + 1, cs =>
    match skipWs cs with
    | '{' :: rest =>
      match parseObjBody fuel rest with
      | some (members, r) => some (Json.obj members, r)
      | none => none
    | '[' :: rest =>
      match parseArrBody fuel rest with
      | some (elems, r) => some (Json.arr elems, r)
      | none => none
    | '"' :: rest =>
      match strChars rest with
      | some (body, r) => some (Json.str (String.mk body), r)
      | none => none
    | 't' :: 'r' :: 'u' :: 'e' :: rest => some (Json.bool true, rest)
    | 'f' :: 'a' :: 'l' :: 's' :: 'e' :: rest => some (Json.bool false, rest)
    | 'n' :: 'u' :: 'l' :: 'l' :: rest => some (Json.null, rest)
    | 'N' :: 'a' :: 'N' :: rest => some (Json.num "NaN", rest)
    | 'I' :: 'n' :: 'f' :: 'i' :: 'n' :: 'i' :: 't' :: 'y' :: rest =>
      some (Json.num "Infinity", rest)
    | '-' :: 'I' :: 'n' :: 'f' :: 'i' :: 'n' :: 'i' :: 't' :: 'y' :: rest =>
      some (Json.num "-Infinity", rest)
    | cs1 =>
      match parseNumber cs1 with
      | some (lit, r) => some (Json.num lit, r)
      | none => none

/-- Parse an object body (the cursor is just past `{`). -/
def parseObjBody : Nat → List Char → Option (List (String × Json) × List Char)
  | 0, _ => none
  | fuel + 1, cs =>
    match skipWs cs with
    | '}' :: rest => some ([], rest)
    | cs1 =>
      match parseMembers fuel cs1 with
      | some (m, ms, r) => some (m :: ms, r)
      | none => none

/-- Parse one or more `"key": value` members separated by commas, ending
at the closing `}` (the cursor is at the opening quote of the first key). -/
def parseMembers : Nat → List Char →
    Option ((String × Json) × List (String × Json) × List Char)
  | 0, _ => none
  | fuel + 1, cs =>
    match cs with
    | '"' :: rest =>
      match strChars rest with
      | some (keyCs, r1) =>
        match skipWs r1 with
        | ':' :: r2 =>
          match parseValue fuel r2 with
          | some (v, r3) =>
            match skipWs r3 with
            | ',' :: r4 =>
              match parseMembers fuel (skipWs r4) with
              | some (m, ms, r5) => some ((String.mk keyCs, v), m :: ms, r5)
              | none => none
            | '}' :: r4 => some ((String.mk keyCs, v), [], r4)
            | _ => none
          | none => none
        | _ => none
      | none => none
    | _ => none

/-- Parse an array body (the cursor is just past `[`). -/
def parseArrBody : Nat → List Char → Option (List Json × List Char)
  | 0, _ => none
  | fuel + 1, cs =>
    match skipWs cs with
    | ']' :: rest => some ([], rest)
    | cs1 =>
      match parseElems fuel cs1 with
      | some (e, es, r) => some (e :: es, r)
      | none => none

/-- Parse one or more array elements separated by commas, ending at `]`. -/
def parseElems : Nat → List Char → Option (Json × List Json × List Char)
  | 0, _ => none
  | fuel + 1, cs =>
    match parseValue fuel cs with
    | some (v, r) =>
      match skipWs r with
      | ',' :: r2 =>
        match parseElems fuel r2 with
        | some (e, es, r3) => some (v, e :: es, r3)
        | none => none
      | ']' :: r2 => some (v, [], r2)
      | _ => none
    | none => none

end

/-- `json.loads`: parse one value, require only whitespace after it.  The
fuel `3·length + 8` dominates the recursion depth of any successful parse
(at most three nested calls advance per consumed character). -/
def jsonParse (s : String) : Option Json :=
  match parseValue (3 * s.toList.length + 8) s.toList with
  | some (v, rest) => if (skipWs rest).isEmpty then some v else none
  | none => none

/-- `extract_function_call` (engine.py:219): search the text for the first
brace-delimited span containing a quoted `name` key and try to parse it as
JSON; `None` on no match or parse failure. -/
def extract_function_call (text : String) : Option Json :=
  match searchFCall text.toList with
  | some m => jsonParse (String.mk m)
  | none => none

/-! ### `parse_function_call_response` (engine.py:181)

Normalization of a backend-native response into the canonical
chat-completion shape.  Python's randomized `hash` is taken as a
parameter; applying `re.search` (inside `extract_function_call`) to a
non-string value raises `TypeError`, modelled by the error result. -/

/-- A Python exception surfaced by the embedded code. -/
inductive PyErr where
  | typeError : PyErr
  | attributeError : PyErr
deriving DecidableEq

/-- `parse_function_call_response` from engine.py: pass through when
`choices` is present; synthesize one canonical choice from a flat
`response` field (running extraction on its text); otherwise pass through
unchanged.  A non-string `response` value reaches `re.search` and raises
`TypeError`. -/
def parse_function_call_response (hashFn : String → Int)
    (response config : PyDict) : Except PyErr Json :=
  if dictHasKey response "choices" then Except.ok (Json.obj response)
  else if dictHasKey response "response" then
    match dictGetD response "response" (Json.str "") with
    | Json.str s =>
      let fc := extract_function_call s
      Except.ok (Json.obj [
        ("id", Json.str ("call_" ++ toString (hashFn s))),
        ("object", Json.str "chat.completion"),
        ("created", dictGetD response "created_at" (Json.num "0")),
        ("model", dictGetD config "model_name" (Json.str "unknown")),
        ("choices", Json.arr [Json.obj [
          ("index", Json.num "0"),
          ("message", Json.obj [
            ("role", Json.str "assistant"),
            ("content", Json.str s),
            ("function_call", optToJson fc)]),
          ("finish_reason",
            Json.str (if optTruthy fc then "function_call" else "stop"))]]),
        ("usage", Json.obj [
          ("prompt_tokens", Json.num "0"),
          ("completion_tokens", Json.num "0"),
          ("total_tokens", Json.num "0")])])
    | _ => Except.error PyErr.typeError
  else Except.ok (Json.obj response)

/-! ### `call_model` dispatch (engine.py:44)

The outbound HTTP calls are represented as data: `call_model` resolves
the backend name and returns which adapter would be invoked with which
arguments, or the `ValueError` (`UnsupportedBackend`) for any other
backend value.  Temperature and max-token count are carried as opaque
`Json` values. -/

/-- The error raised by `call_model` for an unknown backend
(`ValueError(f"Unsupported backend: ...")`). -/
inductive EngineError where
  | unsupportedBackend (backend : Json) : EngineError

/-- The outbound adapter invocation `call_model` would perform. -/
inductive AdapterCall where
  | ollama (prompt : String) (tools : Option Json) (config : PyDict)
      (temperature maxTokens : Json) : AdapterCall
  | vllm (prompt : String) (tools : Option Json) (config : PyDict)
      (temperature maxTokens : Json) : AdapterCall
  | openai (prompt : String) (tools : Option Json) (config : PyDict)
      (temperature maxTokens : Json) : AdapterCall

/-- `call_model` dispatch: `model_config.get("backend", "ollama")` is
compared against the three supported names; anything else raises. -/
def call_model (prompt : String) (tools : Option Json) (config : PyDict)
    (temperature maxTokens : Json) : Except EngineError AdapterCall :=
  let backend := dictGetD config "backend" (Json.str "ollama")
  if backend == Json.str "ollama" then
    Except.ok (AdapterCall.ollama prompt tools config temperature maxTokens)
  else if backend == Json.str "vllm" then
    Except.ok (AdapterCall.vllm prompt tools config temperature maxTokens)
  else if backend == Json.str "openai" then
    Except.ok (AdapterCall.openai prompt tools config temperature maxTokens)
  else Except.error (EngineError.unsupportedBackend backend)

/-! ### Chat-completion payloads (engine.py:118 and engine.py:159) -/

/-- `tools if isinstance(tools, list) else [tools]`. -/
def toToolList (j : Json) : Json :=
  match j with
  | Json.arr l => Json.arr l
  | _ => Json.arr [j]

/-- The request payload built by `call_vllm`: single user message, model
id (default `"default"`), temperature, max tokens; `tools` attached only
when truthy, a non-list coerced to a one-element list. -/
def vllm_payload (prompt : String) (tools : Option Json) (config : PyDict)
    (temperature maxTokens : Json) : PyDict :=
  let base : PyDict := [
    ("model", dictGetD config "model_name" (Json.str "default")),
    ("messages", Json.arr [Json.obj [("role", Json.str "user"),
      ("content", Json.str prompt)]]),
    ("temperature", temperature),
    ("max_tokens", maxTokens)]
  match tools with
  | some j => if jsonTruthy j then base ++ [("tools", toToolList j)] else base
  | none => base

/-- The request payload built by `call_openai_compatible`: identical
shape, with default model id `"gpt-3.5-turbo"`. -/
def openai_payload (prompt : String) (tools : Option Json) (config : PyDict)
    (temperature maxTokens : Json) : PyDict :=
  let base : PyDict := [
    ("model", dictGetD config "model_name" (Json.str "gpt-3.5-turbo")),
    ("messages", Json.arr [Json.obj [("role", Json.str "user"),
      ("content", Json.str prompt)]]),
    ("temperature", temperature),
    ("max_tokens", maxTokens)]
  match tools with
  | some j => if jsonTruthy j then base ++ [("tools", toToolList j)] else base
  | none => base

/-! ### Tool formatting (formatting.py)

`json_tools_to_xml` interpolates values into f-strings; Python's
`str()`/`repr()` rendering of non-string values is embedded by
`pyStr`/`pyRepr` (numbers render as their stored literal and `repr` of a
string omits rare re-quoting corner cases — no claim depends on those
renderings, only on the surrounding document structure). -/

/-- One hexadecimal digit character (lowercase). -/
def hexDigitChar (n : Nat) : Char :=
  if n < 10 then Char.ofNat (48 + n) else Char.ofNat (87 + n)

/-- Four-digit lowercase hexadecimal rendering. -/
def hex4Str (n : Nat) : String :=
  String.mk [hexDigitChar (n / 4096 % 16), hexDigitChar (n / 256 % 16),
    hexDigitChar (n / 16 % 16), hexDigitChar (n % 16)]

/-- `json.dumps` escaping of one character (`ensure_ascii=True`):
printable ASCII passes through, the rest is escaped, astral characters as
surrogate pairs. -/
def escSChar (c : Char) : String :=
  if c = '"' then "\\\""
  else if c = '\\' then "\\\\"
  else if c = '\n' then "\\n"
  else if c = '\r' then "\\r"
  else if c = '\t' then "\\t"
  else if c.toNat = 8 then "\\b"
  else if c.toNat = 12 then "\\f"
  else if c.toNat < 32 then "\\u" ++ hex4Str c.toNat
  else if c.toNat < 127 then String.mk [c]
  else if c.toNat ≤ 0xFFFF then "\\u" ++ hex4Str c.toNat
  else "\\u" ++ hex4Str (0xD800 + (c.toNat - 0x10000) / 0x400)
    ++ "\\u" ++ hex4Str (0xDC00 + (c.toNat - 0x10000) % 0x400)

/-- `json.dumps` of a string. -/
def dumpsStr (s : String) : String :=
  "\"" ++ String.join (s.toList.map escSChar) ++ "\""

mutual

/-- `json.dumps` with its default separators. -/
def dumps : Json → String
  | Json.null => "null"
  | Json.bool true => "true"
  | Json.bool false => "false"
  | Json.num lit => lit
  | Json.str s => dumpsStr s
  | Json.arr l => "[" ++ String.intercalate ", " (dumpsList l) ++ "]"
  | Json.obj l => "\x7b" ++ String.intercalate ", " (dumpsMembers l) ++ "\x7d"

/-- Serialized array elements. -/
def dumpsList : List Json → List String
  | [] => []
  | j :: js => dumps j :: dumpsList js

/-- Serialized object members. -/
def dumpsMembers : List (String × Json) → List String
  | [] => []
  | (k, v) :: ms => (dumpsStr k ++ ": " ++ dumps v) :: dumpsMembers ms

end

mutual

/-- Python `repr` of a value (strings in single quotes). -/
def pyRepr : Json → String
  | Json.null => "None"
  | Json.bool true => "True"
  | Json.bool false => "False"
  | Json.num lit => lit
  | Json.str s => "'" ++ s ++ "'"
  | Json.arr l => "[" ++ String.intercalate ", " (pyReprList l) ++ "]"
  | Json.obj l => "\x7b" ++ String.intercalate ", " (pyReprMembers l) ++ "\x7d"

/-- `repr` of list elements. -/
def pyReprList : List Json → List String
  | [] => []
  | j :: js => pyRepr j :: pyReprList js

/-- `repr` of dict members. -/
def pyReprMembers : List (String × Json) → List String
  | [] => []
  | (k, v) :: ms => ("'" ++ k ++ "': " ++ pyRepr v) :: pyReprMembers ms

end

/-- Python `str()` as used by f-string interpolation. -/
def pyStr : Json → String
  | Json.str s => s
  | j => pyRepr j

/-- Python `x.get(k, d)`: raises `AttributeError` when `x` is not a dict. -/
def jsonGetD (j : Json) (k : String) (d : Json) : Except PyErr Json :=
  match j with
  | Json.obj l => Except.ok (dictGetD l k d)
  | _ => Except.error PyErr.attributeError

/-- Total variant of `jsonGetD` used to state results for well-shaped
tools (agrees with `jsonGetD` on dicts). -/
def jsonGetDT (j : Json) (k : String) (d : Json) : Json :=
  match j with
  | Json.obj l => dictGetD l k d
  | _ => d

/-- The markup fragment emitted for one tool (formatting.py:49-63): a
`tool` element with the name as attribute, a `description` child, and —
when truthy — a `parameters` child holding the schema as JSON text. -/
def toolXml (tool : Json) : Except PyErr String := do
  let func ← jsonGetD tool "function" (Json.obj [])
  let name ← jsonGetD func "name" (Json.str "")
  let description ← jsonGetD func "description" (Json.str "")
  let parameters ← jsonGetD func "parameters" (Json.obj [])
  Except.ok ("<tool name='" ++ pyStr name ++ "'>"
    ++ "<description>" ++ pyStr description ++ "</description>"
    ++ (if jsonTruthy parameters then
          "<parameters>" ++ dumps parameters ++ "</parameters>"
        else "")
    ++ "</tool>")

/-- The pure rendering of one tool element, for well-shaped tools. -/
def toolElement (tool : Json) : String :=
  let func := jsonGetDT tool "function" (Json.obj [])
  let name := jsonGetDT func "name" (Json.str "")
  let description := jsonGetDT func "description" (Json.str "")
  let parameters := jsonGetDT func "parameters" (Json.obj [])
  "<tool name='" ++ pyStr name ++ "'>"
    ++ "<description>" ++ pyStr description ++ "</description>"
    ++ (if jsonTruthy parameters then
          "<parameters>" ++ dumps parameters ++ "</parameters>"
        else "")
    ++ "</tool>"

/-- A tool whose shape the markup serializer fully handles: a dict whose
`function` entry (defaulting to the empty dict) is itself a dict. -/
def isToolDict (tool : Json) : Bool :=
  match tool with
  | Json.obj l =>
    match dictGetD l "function" (Json.obj []) with
    | Json.obj _ => true
    | _ => false
  | _ => false

/-- `json_tools_to_xml` (formatting.py:35): the `<tools>` document built
by concatenating the per-tool fragments in order. -/
def json_tools_to_xml (tools : List Json) : Except PyErr String := do
  let parts ← tools.mapM toolXml
  Except.ok ("<tools>" ++ String.join parts ++ "</tools>")

/-- `xml_tools_to_json` (formatting.py:69): declared reverse conversion;
the body is a TODO that returns the empty list for every input. -/
def xml_tools_to_json (_xmlString : String) : List Json := []

/-- The three possible shapes returned by `format_tools_for_model`. -/
inductive FormatResult where
  | jsonTools (tools : List Json) : FormatResult
  | xmlString (s : String) : FormatResult
  | fcObj (d : PyDict) : FormatResult

/-- `format_tools_for_model` (formatting.py:10): `"xml"` renders markup,
`"function_calling"` wraps in an envelope, anything else returns the
input list unchanged. -/
def format_tools_for_model (tools : List Json) (format_type : String) :
    Except PyErr FormatResult :=
  if format_type == "xml" then
    (json_tools_to_xml tools).map FormatResult.xmlString
  else if format_type == "function_calling" then
    Except.ok (FormatResult.fcObj [("tools", Json.arr tools)])
  else Except.ok (FormatResult.jsonTools tools)

/-! ## Theorems -/

/-- Comparison with a string literal via `==` coincides with equality. -/
theorem Json.beq_str_right (b : Json) (s : String) :
    ((b == Json.str s) = true) ↔ b = Json.str s := by
  cases b <;> simp [BEq.beq, Json.beq]

/-- C6: for every list of tool schemas, formatting with the
structured-json kind returns the input list unchanged. -/
theorem format_json_identity (tools : List Json) :
    format_tools_for_model tools "json"
      = Except.ok (FormatResult.jsonTools tools) := rfl

/-- C10: for every format kind other than `"xml"` and
`"function_calling"`, `format_tools_for_model` silently falls through to
the structured-json identity branch. -/
theorem format_unknown_kind_identity (tools : List Json) (fmt : String)
    (h1 : fmt ≠ "xml") (h2 : fmt ≠ "function_calling") :
    format_tools_for_model tools fmt
      = Except.ok (FormatResult.jsonTools tools) := by
  simp [format_tools_for_model, h1, h2]

/-- Concrete instance of `format_unknown_kind_identity` at the unknown
kind `"yaml"`. -/
theorem format_unknown_kind_identity_witness :
    format_tools_for_model [Json.obj []] "yaml"
      = Except.ok (FormatResult.jsonTools [Json.obj []]) :=
  format_unknown_kind_identity [Json.obj []] "yaml" (by decide) (by decide)

/-- C8: the code's reverse conversion returns the empty list for every
input instead of failing with `NotSupported` as specified. -/
theorem xml_tools_to_json_silently_empty (s : String) :
    xml_tools_to_json s = [] := rfl

/-- C5: a configuration whose backend is none of `ollama`, `vllm`,
`openai` makes `call_model` fail with the unsupported-backend error and
invoke no adapter. -/
theorem call_model_unsupported_backend (prompt : String)
    (tools : Option Json) (config : PyDict) (temperature maxTokens : Json)
    (h1 : dictGetD config "backend" (Json.str "ollama") ≠ Json.str "ollama")
    (h2 : dictGetD config "backend" (Json.str "ollama") ≠ Json.str "vllm")
    (h3 : dictGetD config "backend" (Json.str "ollama") ≠ Json.str "openai") :
    call_model prompt tools config temperature maxTokens
      = Except.error (EngineError.unsupportedBackend
          (dictGetD config "backend" (Json.str "ollama"))) := by
  unfold call_model
  rw [if_neg, if_neg, if_neg]
  · exact fun h => h3 ((Json.beq_str_right _ _).mp h)
  · exact fun h => h2 ((Json.beq_str_right _ _).mp h)
  · exact fun h => h1 ((Json.beq_str_right _ _).mp h)

/-- Concrete instance of `call_model_unsupported_backend` at the backend
`"unknown-xyz"`. -/
theorem call_model_unsupported_backend_witness :
    call_model "hi" none [("backend", Json.str "unknown-xyz")]
        (Json.num "0.7") (Json.num "1000")
      = Except.error (EngineError.unsupportedBackend
          (Json.str "unknown-xyz")) := by
  have h := call_model_unsupported_backend "hi" none
    [("backend", Json.str "unknown-xyz")] (Json.num "0.7") (Json.num "1000")
    (by simp [dictGetD, dictLookup, List.find?])
    (by simp [dictGetD, dictLookup, List.find?])
    (by simp [dictGetD, dictLookup, List.find?])
  simpa [dictGetD, dictLookup, List.find?] using h

/-- C2: normalizing the raw response `{"response": "hello",
"created_at": 5}` yields exactly one choice with content `"hello"`,
finish reason `"stop"`, created `5`, and all-zero usage counts (for any
hash function and configuration). -/
theorem normalize_flat_hello (hashFn : String → Int) (config : PyDict) :
    parse_function_call_response hashFn
        [("response", Json.str "hello"), ("created_at", Json.num "5")] config
      = Except.ok (Json.obj [
          ("id", Json.str ("call_" ++ toString (hashFn "hello"))),
          ("object", Json.str "chat.completion"),
          ("created", Json.num "5"),
          ("model", dictGetD config "model_name" (Json.str "unknown")),
          ("choices", Json.arr [Json.obj [
            ("index", Json.num "0"),
            ("message", Json.obj [
              ("role", Json.str "assistant"),
              ("content", Json.str "hello"),
              ("function_call", Json.null)]),
            ("finish_reason", Json.str "stop")]]),
          ("usage", Json.obj [
            ("prompt_tokens", Json.num "0"),
            ("completion_tokens", Json.num "0"),
            ("total_tokens", Json.num "0")])]) := rfl

/-- C9: both chat-completion payload builders place exactly one user
message containing the prompt, the configured model id, the temperature
and the max-token count; when supplied (truthy) tools are attached under
`tools`, a non-list coerced to a one-element list. -/
theorem chat_payload_shape (prompt : String) (tools : Option Json)
    (config : PyDict) (temperature maxTokens : Json) :
    (dictLookup (vllm_payload prompt tools config temperature maxTokens)
        "messages" = some (Json.arr [Json.obj [("role", Json.str "user"),
          ("content", Json.str prompt)]])
      ∧ dictLookup (vllm_payload prompt tools config temperature maxTokens)
          "model" = some (dictGetD config "model_name" (Json.str "default"))
      ∧ dictLookup (vllm_payload prompt tools config temperature maxTokens)
          "temperature" = some temperature
      ∧ dictLookup (vllm_payload prompt tools config temperature maxTokens)
          "max_tokens" = some maxTokens
      ∧ ∀ j, tools = some j → jsonTruthy j = true →
          dictLookup (vllm_payload prompt tools config temperature maxTokens)
            "tools" = some (toToolList j))
    ∧ (dictLookup (openai_payload prompt tools config temperature maxTokens)
        "messages" = some (Json.arr [Json.obj [("role", Json.str "user"),
          ("content", Json.str prompt)]])
      ∧ dictLookup (openai_payload prompt tools config temperature maxTokens)
          "model" = some (dictGetD config "model_name" (Json.str "gpt-3.5-turbo"))
      ∧ dictLookup (openai_payload prompt tools config temperature maxTokens)
          "temperature" = some temperature
      ∧ dictLookup (openai_payload prompt tools config temperature maxTokens)
          "max_tokens" = some maxTokens
      ∧ ∀ j, tools = some j → jsonTruthy j = true →
          dictLookup (openai_payload prompt tools config temperature maxTokens)
            "tools" = some (toToolList j)) := by
  cases tools with
  | none =>
    exact ⟨⟨rfl, rfl, rfl, rfl, fun j hj => by cases hj⟩,
      ⟨rfl, rfl, rfl, rfl, fun j hj => by cases hj⟩⟩
  | some j =>
    by_cases hj : jsonTruthy j = true
    · refine ⟨⟨?_, ?_, ?_, ?_, ?_⟩, ⟨?_, ?_, ?_, ?_, ?_⟩⟩ <;>
        first
        | (intro j' hj' _; cases hj'; simp [vllm_payload, openai_payload,
            hj, dictLookup, List.find?])
        | simp [vllm_payload, openai_payload, hj, dictLookup, List.find?]
    · have hj' : jsonTruthy j = false := by
        cases hjv : jsonTruthy j
        · rfl
        · exact absurd hjv hj
      refine ⟨⟨?_, ?_, ?_, ?_, ?_⟩, ⟨?_, ?_, ?_, ?_, ?_⟩⟩ <;>
        first
        | (intro j' hje htr; cases hje; exact absurd htr hj)
        | simp [vllm_payload, openai_payload, hj', dictLookup, List.find?]

/-- Concrete instance of `chat_payload_shape`: a single non-list tool
object is attached as a one-element list. -/
theorem chat_payload_shape_witness :
    dictLookup (vllm_payload "hi" (some (Json.obj [("type", Json.str "function")]))
        [] (Json.num "0.7") (Json.num "1000")) "tools"
      = some (Json.arr [Json.obj [("type", Json.str "function")]]) :=
  (chat_payload_shape "hi" (some (Json.obj [("type", Json.str "function")]))
      [] (Json.num "0.7") (Json.num "1000")).1.2.2.2.2
    (Json.obj [("type", Json.str "function")]) rfl (by decide)

/-- C4 counterexample: the raw response `{"response": 123}` contains
neither a `choices` key nor a flat `response` *text* field, yet
normalization does not return it unchanged — the branch is chosen by key
presence alone and extraction raises `TypeError` on the non-string. -/
theorem normalize_passthrough_cex :
    parse_function_call_response (fun _ => 0) [("response", Json.num "123")] []
        = Except.error PyErr.typeError
      ∧ parse_function_call_response (fun _ => 0) [("response", Json.num "123")] []
        ≠ Except.ok (Json.obj [("response", Json.num "123")]) := by
  refine ⟨rfl, fun h => ?_⟩
  exact Except.noConfusion h

/-- C4 (amended): normalization is the identity whenever the raw response
contains a `choices` key, and whenever it contains neither a `choices`
key nor a `response` key. -/
theorem normalize_passthrough (hashFn : String → Int)
    (response config : PyDict) :
    (dictHasKey response "choices" = true →
      parse_function_call_response hashFn response config
        = Except.ok (Json.obj response))
    ∧ (dictHasKey response "choices" = false →
        dictHasKey response "response" = false →
        parse_function_call_response hashFn response config
          = Except.ok (Json.obj response)) := by
  constructor
  · intro h
    simp [parse_function_call_response, h]
  · intro h1 h2
    simp [parse_function_call_response, h1, h2]

/-- Concrete instances of `normalize_passthrough`: a canonical response
and an unrecognized shape both pass through unchanged. -/
theorem normalize_passthrough_witness :
    parse_function_call_response (fun _ => 0) [("choices", Json.arr [])] []
        = Except.ok (Json.obj [("choices", Json.arr [])])
      ∧ parse_function_call_response (fun _ => 0) [("status", Json.str "ok")] []
        = Except.ok (Json.obj [("status", Json.str "ok")]) :=
  ⟨(normalize_passthrough (fun _ => 0) [("choices", Json.arr [])] []).1
      (by decide),
   (normalize_passthrough (fun _ => 0) [("status", Json.str "ok")] []).2
      (by decide) (by decide)⟩

/-- C1: `extract_function_call` returns `None` when the text has no
brace-delimited span with a quoted `name` key, returns the JSON parse of
the first such span otherwise (so `None` again on parse failure), finds
the call named `"lookup"` in the documented example, and finds nothing in
`"no function call here"`. -/
theorem extract_function_call_spec :
    (∀ text : String, searchFCall text.toList = none →
      extract_function_call text = none)
    ∧ (∀ (text : String) (m : List Char), searchFCall text.toList = some m →
        extract_function_call text = jsonParse (String.mk m))
    ∧ (∃ call, extract_function_call
          "leading text \x7b\"name\": \"lookup\", \"arg\": 1\x7d trailing"
        = some (Json.obj call)
        ∧ dictLookup call "name" = some (Json.str "lookup"))
    ∧ extract_function_call "no function call here" = none := by
  refine ⟨?_, ?_,
    ⟨[("name", Json.str "lookup"), ("arg", Json.num "1")], rfl, rfl⟩, rfl⟩
  · intro text h
    unfold extract_function_call
    rw [h]
  · intro text m h
    unfold extract_function_call
    rw [h]

/-- Concrete instances of `extract_function_call_spec`: a text with no
match yields `None`, and a matched span that is not valid JSON is handed
to the parser (which fails, yielding `None`). -/
theorem extract_function_call_spec_witness :
    extract_function_call "nothing to see" = none
    ∧ extract_function_call "x \x7b\"name\" y\x7d z"
        = jsonParse (String.mk
            ['{', '"', 'n', 'a', 'm', 'e', '"', ' ', 'y', '}'])
    ∧ jsonParse (String.mk
        ['{', '"', 'n', 'a', 'm', 'e', '"', ' ', 'y', '}']) = none :=
  ⟨extract_function_call_spec.1 "nothing to see" rfl,
   extract_function_call_spec.2.1 "x \x7b\"name\" y\x7d z"
     ['{', '"', 'n', 'a', 'm', 'e', '"', ' ', 'y', '}'] rfl,
   rfl⟩

/-- For a well-shaped tool the fallible rendering succeeds and equals the
pure rendering. -/
theorem toolXml_ok (t : Json) (h : isToolDict t = true) :
    toolXml t = Except.ok (toolElement t) := by
  cases t with
  | obj l =>
    cases hf : dictGetD l "function" (Json.obj []) with
    | obj fl =>
      simp [toolXml, toolElement, jsonGetD, jsonGetDT, hf, Bind.bind, Except.bind]
    | null => simp [isToolDict, hf] at h
    | bool b => simp [isToolDict, hf] at h
    | num n => simp [isToolDict, hf] at h
    | str s => simp [isToolDict, hf] at h
    | arr a => simp [isToolDict, hf] at h
  | null => simp [isToolDict] at h
  | bool b => simp [isToolDict] at h
  | num n => simp [isToolDict] at h
  | str s => simp [isToolDict] at h
  | arr a => simp [isToolDict] at h

/-- `mapM` over tools that all render successfully collects the pure
renderings in order. -/
theorem mapM_toolXml_ok : ∀ tools : List Json,
    (∀ t ∈ tools, toolXml t = Except.ok (toolElement t)) →
    tools.mapM toolXml = Except.ok (tools.map toolElement) := by
  intro tools h
  induction tools with
  | nil => rfl
  | cons a l ih =>
    rw [List.mapM_cons, h a (List.mem_cons_self a l),
      ih (fun t ht => h t (List.mem_cons_of_mem a ht))]
    rfl

/-- C7: for well-shaped tools, the inline-markup rendering is the
`<tools>` document containing exactly one `toolElement` fragment per
input tool, in order — each fragment carrying the tool's name as an
attribute, a `description` child, and a `parameters` child holding the
schema as JSON text exactly when the parameters are non-empty. -/
theorem json_tools_to_xml_structure (tools : List Json)
    (h : ∀ t ∈ tools, isToolDict t = true) :
    json_tools_to_xml tools
      = Except.ok ("<tools>"
          ++ String.join (tools.map toolElement) ++ "</tools>") := by
  unfold json_tools_to_xml
  rw [mapM_toolXml_ok tools (fun t ht => toolXml_ok t (h t ht))]
  rfl

/-- Concrete instance of `json_tools_to_xml_structure` on two tools, one
with parameters and one without. -/
theorem json_tools_to_xml_structure_witness :
    json_tools_to_xml
        [Json.obj [("function", Json.obj [("name", Json.str "f"),
          ("description", Json.str "looks things up")])],
         Json.obj [("function", Json.obj [("name", Json.str "g"),
          ("description", Json.str "sends mail"),
          ("parameters", Json.obj [("to", Json.str "string")])])]]
      = Except.ok ("<tools>"
          ++ String.join
            ([Json.obj [("function", Json.obj [("name", Json.str "f"),
                ("description", Json.str "looks things up")])],
              Json.obj [("function", Json.obj [("name", Json.str "g"),
                ("description", Json.str "sends mail"),
                ("parameters", Json.obj [("to", Json.str "string")])])]].map
              toolElement)
          ++ "</tools>") := by
  apply json_tools_to_xml_structure
  intro t ht
  simp only [List.mem_cons, List.mem_singleton] at ht
  rcases ht with h1 | h1 | h1
  · rw [h1]; rfl
  · rw [h1]; rfl
  · cases h1

/-- A substring occurrence carries every one of its characters into the
containing list. -/
theorem containsSub_subset (pat : List Char) :
    ∀ l : List Char, containsSub pat l = true → ∀ c ∈ pat, c ∈ l := by
  intro l
  induction l with
  | nil =>
    intro h c hc
    simp [containsSub, List.isEmpty_iff] at h
    subst h
    cases hc
  | cons a rest ih =>
    intro h c hc
    simp only [containsSub, Bool.or_eq_true] at h
    rcases h with h | h
    · exact (List.isPrefixOf_iff_prefix.mp h).subset hc
    · exact List.mem_cons_of_mem a (ih h c hc)

/-- The part before the first closing brace contains no closing brace. -/
theorem splitAtRBrace_no_rbrace :
    ∀ (cs inner after : List Char),
      splitAtRBrace cs = some (inner, after) → '}' ∉ inner := by
  intro cs
  induction cs with
  | nil => intro inner after h; cases h
  | cons c rest ih =>
    intro inner after h
    simp only [splitAtRBrace] at h
    split at h
    · cases h
      exact List.not_mem_nil '}'
    · cases hs : splitAtRBrace rest with
      | some p =>
        rw [hs] at h
        cases h
        intro hmem
        rcases List.mem_cons.mp hmem with hc | hc
        · exact absurd hc.symm (by assumption)
        · exact ih p.1 p.2 (by rw [hs]) hc
      | none => rw [hs] at h; cases h

/-- Shape of a successful regex search: the match is a brace-free span
containing the quoted `name` key, wrapped in one brace pair. -/
theorem searchFCall_shape :
    ∀ (cs m : List Char), searchFCall cs = some m →
      ∃ inner, m = '{' :: (inner ++ ['}']) ∧ '}' ∉ inner
        ∧ containsSub nameKeyPat inner = true := by
  intro cs
  induction cs with
  | nil => intro m h; cases h
  | cons c rest ih =>
    intro m h
    simp only [searchFCall] at h
    split at h
    · cases hs : splitAtRBrace rest with
      | some p =>
        obtain ⟨inner, aft⟩ := p
        rw [hs] at h
        dsimp only at h
        by_cases hc : containsSub nameKeyPat inner = true
        · rw [if_pos hc] at h
          cases h
          exact ⟨inner, rfl,
            splitAtRBrace_no_rbrace rest inner aft (by rw [hs]), hc⟩
        · rw [if_neg hc] at h
          exact ih m h
      | none =>
        rw [hs] at h
        exact ih m h
    · exact ih m h

/-- Unfolding of the value parser at an opening brace. -/
theorem parseValue_succ_lbrace (k : Nat) (tail : List Char) :
    parseValue (k + 1) ('{' :: tail)
      = match parseObjBody k tail with
        | some (members, r) => some (Json.obj members, r)
        | none => none := rfl

/-- An empty member list only arises when the first non-blank character
after the opening brace is the closing brace. -/
theorem parseObjBody_nil_members (fuel : Nat) (cs r : List Char)
    (h : parseObjBody fuel cs = some ([], r)) : skipWs cs = '}' :: r := by
  cases fuel with
  | zero => cases h
  | succ k =>
    simp only [parseObjBody] at h
    split at h
    · cases h
      assumption
    · cases hm : parseMembers k (skipWs cs) with
      | some p =>
        rw [show skipWs cs = _ from rfl] at h
        rw [hm] at h
        cases h
      | none =>
        rw [hm] at h
        cases h

/-- A successfully extracted call is always a truthy value: the matched
span is one brace pair whose inside is brace-free and contains the quoted
`name` key, so a successful parse yields an object with at least one
member. -/
theorem extract_some_truthy (s : String) (j : Json)
    (h : extract_function_call s = some j) : jsonTruthy j = true := by
  unfold extract_function_call at h
  cases hm : searchFCall s.toList with
  | none => rw [hm] at h; cases h
  | some m =>
    rw [hm] at h
    obtain ⟨inner, hmEq, hNoR, hSub⟩ := searchFCall_shape s.toList m hm
    subst hmEq
    unfold jsonParse at h
    dsimp only at h
    have hlist : (String.mk ('{' :: (inner ++ ['}']))).toList
        = '{' :: (inner ++ ['}']) := rfl
    rw [hlist] at h
    obtain ⟨k, hk⟩ :
        ∃ k, 3 * ('{' :: (inner ++ ['}'])).length + 8 = k + 1 :=
      ⟨3 * ('{' :: (inner ++ ['}'])).length + 7, by omega⟩
    rw [hk, parseValue_succ_lbrace] at h
    cases ho : parseObjBody k (inner ++ ['}']) with
    | none => rw [ho] at h; cases h
    | some p =>
      obtain ⟨members, r⟩ := p
      rw [ho] at h
      dsimp only at h
      split at h
      · cases h
        cases members with
        | cons m1 ms => simp [jsonTruthy]
        | nil =>
          exfalso
          have hws := parseObjBody_nil_members k (inner ++ ['}']) r ho
          have hn : 'n' ∈ inner :=
            containsSub_subset nameKeyPat inner hSub 'n' (by decide)
          unfold skipWs at hws
          rw [List.dropWhile_append] at hws
          by_cases he : (List.dropWhile isWs inner).isEmpty = true
          · have hall : ∀ x ∈ inner, isWs x = true :=
              List.dropWhile_eq_nil_iff.mp (List.isEmpty_iff.mp he)
            exact absurd (hall 'n' hn) (by decide)
          · rw [if_neg he] at hws
            have hne : List.dropWhile isWs inner ≠ [] := by
              intro hnil
              exact he (by rw [hnil]; rfl)
            obtain ⟨c, t, hct⟩ := List.exists_cons_of_ne_nil hne
            rw [hct, List.cons_append] at hws
            injection hws with hcr hrest
            have hcin : c ∈ inner := by
              have hsfx : List.dropWhile isWs inner <:+ inner :=
                List.dropWhile_suffix isWs
              exact hsfx.subset (by rw [hct]; exact List.mem_cons_self c t)
            exact hNoR (hcr ▸ hcin)
      · cases h

/-- Explicit form of the canonical response synthesized from a flat
`response` text field. -/
theorem normalize_flat_eq (hashFn : String → Int)
    (response config : PyDict) (s : String)
    (hch : dictHasKey response "choices" = false)
    (hresp : dictLookup response "response" = some (Json.str s)) :
    parse_function_call_response hashFn response config
      = Except.ok (Json.obj [
          ("id", Json.str ("call_" ++ toString (hashFn s))),
          ("object", Json.str "chat.completion"),
          ("created", dictGetD response "created_at" (Json.num "0")),
          ("model", dictGetD config "model_name" (Json.str "unknown")),
          ("choices", Json.arr [Json.obj [
            ("index", Json.num "0"),
            ("message", Json.obj [
              ("role", Json.str "assistant"),
              ("content", Json.str s),
              ("function_call", optToJson (extract_function_call s))]),
            ("finish_reason",
              Json.str (if optTruthy (extract_function_call s)
                then "function_call" else "stop"))]]),
          ("usage", Json.obj [
            ("prompt_tokens", Json.num "0"),
            ("completion_tokens", Json.num "0"),
            ("total_tokens", Json.num "0")])]) := by
  have hc1 : ¬ (dictHasKey response "choices" = true) := by simp [hch]
  have hc2 : dictHasKey response "response" = true := by
    unfold dictHasKey
    rw [hresp]
    rfl
  have hget : dictGetD response "response" (Json.str "") = Json.str s := by
    unfold dictGetD
    rw [hresp]
    rfl
  unfold parse_function_call_response
  rw [if_neg hc1, if_pos hc2, hget]

/-- C3: normalizing any raw response with a flat `response` text field
(and no `choices` key) yields exactly one choice, whose finish reason is
`"function_call"` precisely when extraction succeeded on the text, and
`"stop"` otherwise. -/
theorem normalize_finish_reason (hashFn : String → Int)
    (response config : PyDict) (s : String)
    (hch : dictHasKey response "choices" = false)
    (hresp : dictLookup response "response" = some (Json.str s)) :
    ∃ members choiceMembers,
      parse_function_call_response hashFn response config
          = Except.ok (Json.obj members)
        ∧ dictLookup members "choices"
            = some (Json.arr [Json.obj choiceMembers])
        ∧ (dictLookup choiceMembers "finish_reason"
              = some (Json.str "function_call")
            ↔ (extract_function_call s).isSome = true) := by
  refine ⟨_, [("index", Json.num "0"),
    ("message", Json.obj [
      ("role", Json.str "assistant"),
      ("content", Json.str s),
      ("function_call", optToJson (extract_function_call s))]),
    ("finish_reason",
      Json.str (if optTruthy (extract_function_call s)
        then "function_call" else "stop"))],
    normalize_flat_eq hashFn response config s hch hresp, rfl, ?_⟩
  cases hfc : extract_function_call s with
  | none => simp [optTruthy, dictLookup, List.find?]
  | some j =>
    have ht := extract_some_truthy s j hfc
    simp [optTruthy, ht, dictLookup, List.find?]

/-- Concrete instance of `normalize_finish_reason` on the raw response
`{"response": "hi"}`. -/
theorem normalize_finish_reason_witness :
    ∃ members choiceMembers,
      parse_function_call_response (fun _ => 0) [("response", Json.str "hi")] []
          = Except.ok (Json.obj members)
        ∧ dictLookup members "choices"
            = some (Json.arr [Json.obj choiceMembers])
        ∧ (dictLookup choiceMembers "finish_reason"
              = some (Json.str "function_call")
            ↔ (extract_function_call "hi").isSome = true) :=
  normalize_finish_reason (fun _ => 0) [("response", Json.str "hi")] [] "hi"
    (by decide) rfl
